import Mathlib

/-!
Shallow embedding of the two scripts of the repository
`create_course_quizzes_for_canvas`:

* `create_canvas_quiz.py` — the `Text2QtiParser` line scanner, the
  quiz/question creation pipeline (HTTP calls modelled as oracles), and the
  environment-variable validation in `main`.
* `get_canvas_module_items.py` — the module walker, `download_file`,
  `download_page` and `make_sortable_filename` (HTTP calls and the
  filesystem modelled as oracles / effect traces).

Python strings are embedded as `List Char`.  The regexes of the source are
hand-compiled into deterministic matchers; every line the parser matches
comes from `content.split('\n')` and therefore contains no `'\n'`, so the
"`.` does not match a newline" subtlety of Python regexes is irrelevant for
the program's inputs and is not modelled.  Python's whitespace set is
modelled by `Char.isWhitespace` (space, tab, CR, LF), which covers the
whitespace occurring in quiz files.
-/

/-- Python `str.strip()` (both-ends whitespace strip), as used on every
scanned line of `Text2QtiParser`. -/
def strip (l : List Char) : List Char :=
  ((l.dropWhile Char.isWhitespace).reverse.dropWhile Char.isWhitespace).reverse

/-- Python `str.lower()`, used for the `quiz title:`-style prefix tests and
for the true/false auto-detection. -/
def lower (l : List Char) : List Char :=
  l.map Char.toLower

/-- Python `str.startswith`, first argument is the pattern. -/
def startsWith : List Char → List Char → Bool
  | [], _ => true
  | _ :: _, [] => false
  | p :: ps, c :: cs => p == c && startsWith ps cs

/-- Matcher for a regex suffix `\s+(.+)`: at least one whitespace character,
then a nonempty capture.  `\s+` is greedy; when the whole remainder is
whitespace the engine backtracks one character so that `.+` can still match
(this backtracking branch is unreachable on stripped lines, which never end
in whitespace, but is kept for fidelity to `re`). -/
def wsCapture (r : List Char) : Option (List Char) :=
  match r with
  | [] => none
  | c :: cs =>
    if c.isWhitespace then
      let rest := cs.dropWhile Char.isWhitespace
      if rest.isEmpty then
        if cs.isEmpty then none else some [(c :: cs).getLastD ' ']
      else some rest
    else none

/-- Core of the multiple-choice option regex `^(\*?)([a-z])\)\s+(.+)` after
the optional `*` has been resolved: a lowercase ASCII letter, `)`,
whitespace, capture. -/
def choiceCore (star : Bool) (l : List Char) : Option (Bool × Char × List Char) :=
  match l with
  | c :: p :: r =>
    if p = ')' ∧ 'a' ≤ c ∧ c ≤ 'z' then
      (wsCapture r).map (fun t => (star, c, t))
    else none
  | _ => none

/-- `re.match(r'^(\*?)([a-z])\)\s+(.+)', line)` from
`Text2QtiParser._parse_question`; returns (star present, letter, captured
choice text).  `\*?` is greedy but `*` is not in `[a-z]`, so the match is
deterministic. -/
def choiceMatch (l : List Char) : Option (Bool × Char × List Char) :=
  if l.headD ' ' = '*' then choiceCore true l.tail else choiceCore false l

/-- Backtracking alternative of the bracket regex where `(.?)` matches the
empty string: the bracket is `[]` and the group is empty. -/
def multiAlt (rest : List Char) : Option (Option Char × List Char) :=
  match rest with
  | p :: r => if p = ']' then (wsCapture r).map (fun t => ((none : Option Char), t)) else none
  | [] => none

/-- `re.match(r'^\[(.?)\]\s+(.+)', line)`: greedy `(.?)` first takes one
character and requires `]` after it; on failure the engine retries with the
empty group. Returns (group-1 contents, captured choice text). -/
def multiMatch (l : List Char) : Option (Option Char × List Char) :=
  match l with
  | b :: rest =>
    if b = '[' then
      match rest with
      | c :: p :: r =>
        if p = ']' then
          match wsCapture r with
          | some t => some (some c, t)
          | none => multiAlt rest
        else multiAlt rest
      | [_] => multiAlt rest
      | [] => none
    else none
  | [] => none

/-- `re.match(r'^=\s+(.+)', line)`. -/
def numericalMatch (l : List Char) : Option (List Char) :=
  match l with
  | c :: r => if c = '=' then wsCapture r else none
  | [] => none

/-- `re.match(r'^\*\s+(.+)', line)` (short-answer marker). -/
def shortMatch (l : List Char) : Option (List Char) :=
  match l with
  | c :: r => if c = '*' then wsCapture r else none
  | [] => none

/-- `re.match(r'^_{3,}', line)`: the line starts with three underscores. -/
def essayMatch (l : List Char) : Bool :=
  match l with
  | a :: b :: c :: _ => a == '_' && b == '_' && c == '_'
  | _ => false

/-- `re.match(r'^\^{3,}', line)`: the line starts with three circumflexes. -/
def fileMatch (l : List Char) : Bool :=
  match l with
  | a :: b :: c :: _ => a == '^' && b == '^' && c == '^'
  | _ => false

/-- `re.match(r'^\d+\.\s+', line)`: the question-start detection used both
in `parse_content` and as the block terminator inside `_parse_question`. -/
def isQuestionStart (l : List Char) : Bool :=
  !(l.takeWhile Char.isDigit).isEmpty &&
    (match l.dropWhile Char.isDigit with
     | p :: c :: _ => p == '.' && c.isWhitespace
     | _ => false)

/-- `re.match(r'^\d+\.\s+(.+)', question_line)`: the header match of
`_parse_question`, returning the captured question text. -/
def headerMatch (l : List Char) : Option (List Char) :=
  if (l.takeWhile Char.isDigit).isEmpty then none
  else
    match l.dropWhile Char.isDigit with
    | p :: r => if p = '.' then wsCapture r else none
    | [] => none

/-- One choice entry of a parsed question
(`{'text': ..., 'correct': ...}`). -/
structure Choice where
  text : List Char
  correct : Bool
deriving DecidableEq, Repr

/-- A parsed question dictionary.  `text`, `type`, `choices`, `points` are
the keys set unconditionally by `_parse_question`; `answer` / `answers` are
the keys added only by the numerical / short-answer branches (`none` models
an absent key). -/
structure Question where
  text : List Char
  type : String
  choices : List Choice
  points : Rat
  answer : Option (List Char)
  answers : Option (List (List Char))
deriving DecidableEq, Repr

/-- The question dictionary as initialised at the top of
`_parse_question`. -/
def initQuestion (t : List Char) : Question :=
  ⟨t, "multiple_choice", [], 1, none, none⟩

/-- The body of the line-classification loop of `_parse_question`: one
(stripped, non-question-start) line updates the question record.  The
branches appear in the source order: multiple-choice option, bracketed
multiple-answer option, numerical `=`, short-answer `*`, essay `___`,
file-upload `^^^`, otherwise the line is skipped. -/
def processLine (q : Question) (line : List Char) : Question :=
  match choiceMatch line with
  | some (star, _, t) =>
    { q with type := "multiple_choice", choices := q.choices ++ [⟨t, star⟩] }
  | none =>
  match multiMatch line with
  | some (g, t) =>
    { q with type := "multiple_answer", choices := q.choices ++ [⟨t, decide (g = some '*')⟩] }
  | none =>
  match numericalMatch line with
  | some t => { q with type := "numerical", answer := some (strip t) }
  | none =>
  match shortMatch line with
  | some t => { q with type := "short_answer", answers := some (q.answers.getD [] ++ [t]) }
  | none =>
  if essayMatch line then { q with type := "essay" }
  else if fileMatch line then { q with type := "file_upload" }
  else q

/-- The `while i < len(lines)` loop of `_parse_question` over the lines after
the header: stop at the next question-start line, otherwise classify the
stripped line; returns the scanned question and the number of consumed
lines. -/
def parseBody (q : Question) : List (List Char) → Question × Nat
  | [] => (q, 0)
  | l :: ls =>
    if isQuestionStart (strip l) then (q, 0)
    else
      let r := parseBody (processLine q (strip l)) ls
      (r.1, r.2 + 1)

/-- `_parse_question(lines, start_idx)` given the header line `l` and the
lines after it; the `Nat` is `next_line_index - start_idx`.  Includes the
true/false auto-detection performed after the loop. -/
def parseQuestionAt (l : List Char) (ls : List (List Char)) : Option Question × Nat :=
  match headerMatch (strip l) with
  | none => (none, 1)
  | some t =>
    let r := parseBody (initQuestion t) ls
    let q := r.1
    let q :=
      if q.type = "multiple_choice" ∧ q.choices.length = 2 ∧
          (let ts := q.choices.map (fun ch => lower ch.text)
           ("true".toList ∈ ts ∧ "false".toList ∈ ts) ∨
           ("yes".toList ∈ ts ∧ "no".toList ∈ ts))
      then { q with type := "true_false" } else q
    (some q, 1 + r.2)

/-- `_parse_question` without the final true/false auto-detection: just the
line scan (used to state what the auto-detection adds on top of it). -/
def scanQuestionAt (l : List Char) (ls : List (List Char)) : Option Question × Nat :=
  match headerMatch (strip l) with
  | none => (none, 1)
  | some t =>
    let r := parseBody (initQuestion t) ls
    (some r.1, 1 + r.2)

/-- `_parse_question(lines, start_idx)` in index form: returns the parsed
question and the `next_line_index` returned to `parse_content`. -/
def parseQuestionIdx (lines : List (List Char)) (start : Nat) : Option Question × Nat :=
  let r := parseQuestionAt (lines.getD start []) (lines.drop (start + 1))
  (r.1, start + r.2)

/-- The mutable state of a `Text2QtiParser` object: quiz settings plus the
accumulated question list. -/
structure PState where
  quiz_title : List Char
  quiz_description : List Char
  multiple_attempts : List Char
  questions : List Question
deriving DecidableEq, Repr

/-- `Text2QtiParser.__init__`. -/
def initPState : PState :=
  ⟨"Quiz".toList, [], [], []⟩

/-- `line.split(':', 1)[1]` for a line containing a colon. -/
def afterColon (l : List Char) : List Char :=
  (l.dropWhile (fun c => c ≠ ':')).drop 1

/-- The three `quiz title:` / `quiz description:` / `multiple attempts:`
setting checks of `parse_content` (each tests the lowercased line and stores
the stripped text after the first colon of the original line). -/
def applySettings (st : PState) (line : List Char) : PState :=
  let st :=
    if startsWith "quiz title:".toList (lower line) then
      { st with quiz_title := strip (afterColon line) } else st
  let st :=
    if startsWith "quiz description:".toList (lower line) then
      { st with quiz_description := strip (afterColon line) } else st
  if startsWith "multiple attempts:".toList (lower line) then
    { st with multiple_attempts := strip (afterColon line) } else st

/-- `if question: self.questions.append(question)` after a `_parse_question`
call. -/
def applyQ (st : PState) : Option Question → PState
  | some q => { st with questions := st.questions ++ [q] }
  | none => st

/-- The `while i < len(lines)` loop of `parse_content`.  The loop index `i`
strictly increases on every iteration, so `lines.length` steps of fuel
always suffice; the fuel makes the recursion structural. -/
def parseLoop (lines : List (List Char)) : Nat → Nat → PState → PState
  | 0, _, st => st
  | fuel + 1, i, st =>
    if i < lines.length then
      let line := strip (lines.getD i [])
      if line.isEmpty || line.headD ' ' == '%' then parseLoop lines fuel (i + 1) st
      else
        let st1 := applySettings st line
        if isQuestionStart line then
          parseLoop lines fuel (parseQuestionIdx lines i).2
            (applyQ st1 (parseQuestionIdx lines i).1)
        else parseLoop lines fuel (i + 1) st1
    else st

/-- `content.split('\n')`. -/
def splitNl : List Char → List (List Char)
  | [] => [[]]
  | c :: r =>
    if c = '\n' then [] :: splitNl r
    else
      match splitNl r with
      | h :: t => (c :: h) :: t
      | [] => [[c]]

/-- The dictionary returned by `Text2QtiParser.parse_content`. -/
structure QuizResult where
  title : List Char
  description : List Char
  multiple_attempts : List Char
  questions : List Question
deriving DecidableEq, Repr

/-- `Text2QtiParser.parse_content`: split into lines, reset `questions`,
scan, return the quiz dictionary. -/
def parse_content (content : List Char) : QuizResult :=
  let lines := splitNl content
  let st := parseLoop lines lines.length 0 { initPState with questions := [] }
  ⟨st.quiz_title, st.quiz_description, st.multiple_attempts, st.questions⟩

/-- The sequence of question-header captures encountered by the scan of
`parse_content`, in scan order (same skeleton as `parseLoop`, emitting the
header capture of each question block instead of building the question). -/
def headerTextsLoop (lines : List (List Char)) : Nat → Nat → List (List Char)
  | 0, _ => []
  | fuel + 1, i =>
    if i < lines.length then
      let line := strip (lines.getD i [])
      if line.isEmpty || line.headD ' ' == '%' then headerTextsLoop lines fuel (i + 1)
      else if isQuestionStart line then
        (match headerMatch line with | some t => [t] | none => []) ++
          headerTextsLoop lines fuel (parseQuestionIdx lines i).2
      else headerTextsLoop lines fuel (i + 1)
    else []

/-- The question-header captures of an input, in the order the scan meets
them. -/
def headerTexts (content : List Char) : List (List Char) :=
  headerTextsLoop (splitNl content) (splitNl content).length 0

/-- Result dictionary of `create_quiz_from_text2qti_file` (`α` is the shape
of a Canvas question-creation response, `β` of a quiz-creation
response). -/
structure CreateResult (α β : Type) where
  quiz : β
  questions : List α
  total_questions : Nat
  total_points : Rat
deriving Repr

/-- The question-creation loop of `create_quiz_from_text2qti_file` (the
`for i, question_data in enumerate(..., 1)` loop): `f i q` models the
`create_question_from_parsed` HTTP call at position `i`; an `Except.error`
is caught by the per-item `try/except`, printed, and the loop continues. -/
def addQuestions {α : Type} (f : Nat → Question → Except String α) :
    Nat → List Question → List α
  | _, [] => []
  | i, q :: qs =>
    match f i q with
    | .ok a => a :: addQuestions f (i + 1) qs
    | .error _ => addQuestions f (i + 1) qs

/-- `create_quiz_from_text2qti_file` after parsing: compute total points,
create the quiz (an `Except.error` of `createQuiz` propagates to the
caller), then add the questions one by one and return the result
dictionary. -/
def create_quiz_from_parsed {α β : Type} (createQuiz : Rat → Except String β)
    (createQ : Nat → Question → Except String α) (qd : QuizResult) :
    Except String (CreateResult α β) :=
  let total_points := (qd.questions.map Question.points).sum
  match createQuiz total_points with
  | .error e => .error e
  | .ok quiz =>
    let created := addQuestions createQ 1 qd.questions
    .ok ⟨quiz, created, created.length, total_points⟩

/-- The environment-variable validation at the top of `main` of
`create_canvas_quiz.py`: each of the three variables is required to be
present and non-empty (`if not CANVAS_URL: raise ValueError(...)`), then
`CANVAS_COURSE_ID` is converted with `int(...)`.  The raised `ValueError`s
are modelled as `Except.error`; nothing in `main` catches them, so an error
here is an uncaught exception that terminates the program. -/
def validate_env (env : String → Option String) :
    Except String (String × String × Int) :=
  let url := env "CANVAS_URL"
  let tok := env "CANVAS_API_TOKEN"
  let cid := env "CANVAS_COURSE_ID"
  if url = none ∨ url = some "" then
    .error "CANVAS_URL not found in environment variables. Please check your .env file."
  else if tok = none ∨ tok = some "" then
    .error "CANVAS_API_TOKEN not found in environment variables. Please check your .env file."
  else if cid = none ∨ cid = some "" then
    .error "CANVAS_COURSE_ID not found in environment variables. Please check your .env file."
  else
    match (cid.getD "").toInt? with
    | none => .error "CANVAS_COURSE_ID must be a valid integer in your .env file."
    | some n => .ok (url.getD "", tok.getD "", n)

/-- `str.rstrip('/')`. -/
def rstripSlash (s : String) : String :=
  ⟨(s.toList.reverse.dropWhile (fun c => c = '/')).reverse⟩

/-- `os.getenv("CANVAS_URL").rstrip('/')` at the top of `main` of
`get_canvas_module_items.py`: when the variable is missing, `os.getenv`
returns `None` and the attribute access raises an uncaught
`AttributeError`. -/
def gcmi_canvas_url (env : String → Option String) : Except String String :=
  match env "CANVAS_URL" with
  | none => .error "AttributeError: rstrip of None"
  | some s => .ok (rstripSlash s)

/-- A Canvas module item as seen through `getattr`: every field may be
absent (`none`). -/
structure ModuleItem where
  id : Option Int := none
  content_id : Option Int := none
  page_url : Option String := none
  type : Option String := none
  title : Option String := none
  position : Option Int := none
  published : Option Bool := none
deriving DecidableEq, Repr

/-- A Canvas module with its items. -/
structure CourseModule where
  id : Option Int := none
  name : Option String := none
  position : Option Int := none
  items : List ModuleItem := []
deriving DecidableEq, Repr

/-- `getattr(item, 'type', '')`. -/
def itemType (it : ModuleItem) : String := it.type.getD ""

/-- `getattr(item, 'title', 'untitled')`. -/
def itemTitle (it : ModuleItem) : String := it.title.getD "untitled"

/-- `getattr(item, 'position', 0)`. -/
def itemPosition (it : ModuleItem) : Int := it.position.getD 0

/-- `getattr(item, 'published', False)`. -/
def itemPublished (it : ModuleItem) : Bool := it.published.getD false

/-- `getattr(module, 'id', 0)`. -/
def moduleIdAttr (m : CourseModule) : Int := m.id.getD 0

/-- `getattr(module, 'name', 'Unknown Module')`. -/
def moduleNameAttr (m : CourseModule) : String := m.name.getD "Unknown Module"

/-- `os.path.splitext` (also `Path(...).suffix` via the second component):
the extension starts at the last dot of the name, except that leading dots
do not begin an extension. -/
def splitext (s : String) : String × String :=
  let cs := s.toList
  let lead := cs.takeWhile (fun c => c = '.')
  let rest := cs.dropWhile (fun c => c = '.')
  let afterDot := rest.reverse.takeWhile (fun c => c ≠ '.')
  if afterDot.length = rest.length then (s, "")
  else
    (⟨lead ++ rest.take (rest.length - afterDot.length - 1)⟩,
     ⟨rest.drop (rest.length - afterDot.length - 1)⟩)

/-- One character of the class sanitised away by the filename regex
substitution: space, angle brackets, colon, double quote, slash, backslash,
pipe, question mark, star. -/
def badChar (c : Char) : Bool :=
  c = ' ' || c = '<' || c = '>' || c = ':' || c = '"' || c = '/' ||
  c = '\\' || c = '|' || c = '?' || c = '*'

/-- The `re.sub` of `make_sortable_filename`: each maximal run of forbidden
characters becomes a single underscore (the flag records whether the
previous character was part of such a run). -/
def collapseBadAux : Bool → List Char → List Char
  | _, [] => []
  | prevBad, c :: r =>
    if badChar c then
      (if prevBad then collapseBadAux true r else '_' :: collapseBadAux true r)
    else c :: collapseBadAux false r

/-- The `re.sub` sanitisation of `make_sortable_filename` on strings. -/
def sanitizeStr (s : String) : String :=
  ⟨collapseBadAux false s.toList⟩

/-- Python formatted decimal with format spec 03d: zero-padded to width 3,
the sign counting towards the width. -/
def fmt03 (n : Int) : String :=
  let sign := if n < 0 then "-" else ""
  let ds := toString n.natAbs
  sign ++ ⟨List.replicate (3 - (sign.length + ds.length)) '0'⟩ ++ ds

/-- `make_sortable_filename` from `get_canvas_module_items.py`.  Note that
the source strips `safe_module_title` only after taking the 25-character
truncation, and the stripped value is never used. -/
def make_sortable_filename (title module_title : String)
    (module_position position : Int) (extension : String) : String :=
  let be := splitext title
  let extension := if extension ≠ "" then extension else be.2
  let safe_title := ⟨strip (sanitizeStr be.1).toList⟩
  let truncated_module_title := (sanitizeStr module_title).take 25
  let pfx := fmt03 module_position ++ "_" ++ truncated_module_title ++ "_" ++ fmt03 position
  let base_name := pfx ++ "_" ++ safe_title
  if base_name.length > 200 then
    let safe_title := safe_title.take (200 - pfx.length - 1)
    pfx ++ "_" ++ safe_title ++ extension
  else base_name ++ extension

/-- Observable actions of the downloader: lines printed to stdout and files
written to disk (identified by their path). -/
inductive Effect where
  | print (s : String)
  | write (path : String)
deriving DecidableEq, Repr

/-- A `canvasapi` file object as used by `download_file`: its (optional)
`filename` and `content-type` attributes and the outcome of its
`download` call. -/
structure FileObj where
  filename : Option String := none
  contentType : Option String := none
  downloadResult : Except String Unit := .ok ()

/-- A `canvasapi` page object as used by `download_page`. -/
structure PageObj where
  body : Option String := none

/-- `download_file(item, module, course, canvas, download_dir, module_id,
position)`. `getFile` models `canvas.get_file` (an `Except.error` is any
exception it raises, caught by the function's `try/except`).  Accessing
`module.name` / `module.position` is a plain attribute access in the
source; if the attribute is absent the `AttributeError` is caught by the
same `try/except`. -/
def download_file (getFile : Int → Except String FileObj) (item : ModuleItem)
    (m : CourseModule) (download_dir : String) (position : Int) : List Effect :=
  let title := itemTitle item
  match item.content_id with
  | none => [.print ("    No content_id for file: " ++ title)]
  | some cid =>
    match getFile cid with
    | .error e => [.print ("    Error downloading file " ++ title ++ ": " ++ e)]
    | .ok fo =>
      let original_filename := fo.filename.getD title
      let file_ext := (splitext original_filename).2
      let header := Effect.print ("---- " ++ fo.contentType.getD "unknown" ++ "\t" ++ original_filename)
      match m.name, m.position with
      | some mname, some mpos =>
        let fn := make_sortable_filename title mname mpos position file_ext
        let filepath := download_dir ++ "/" ++ fn
        match fo.downloadResult with
        | .ok _ => [header, .write filepath, .print ("    Downloaded: " ++ fn)]
        | .error e => [header, .print ("    Error downloading file " ++ title ++ ": " ++ e)]
      | _, _ => [header, .print ("    Error downloading file " ++ title ++ ": AttributeError")]

/-- `download_page(item, module, course, canvas, download_dir, module_id,
position)`. `getPage` models `course.get_page`. -/
def download_page (getPage : String → Except String PageObj) (item : ModuleItem)
    (m : CourseModule) (download_dir : String) (position : Int) : List Effect :=
  let title := itemTitle item
  match item.page_url with
  | none => [.print ("    No page_url for page: " ++ title)]
  | some purl =>
    match getPage purl with
    | .error e => [.print ("    Error downloading page " ++ title ++ ": " ++ e)]
    | .ok _ =>
      match m.name, m.position with
      | some mname, some mpos =>
        let fn := make_sortable_filename title mname mpos position ".html"
        let filepath := download_dir ++ "/" ++ fn
        [.write filepath, .print ("    Downloaded page: " ++ fn)]
      | _, _ => [.print ("    Error downloading page " ++ title ++ ": AttributeError")]

/-- One dispatch of the per-item loop of `download_course_modules`: which
download helper (if any) an item is passed to. -/
inductive Call where
  | file (it : ModuleItem)
  | page (it : ModuleItem)
  | skipped (it : ModuleItem)
deriving DecidableEq, Repr

/-- `allowed_types = ['File','Attachment','Page']`. -/
def allowed_types : List String := ["File", "Attachment", "Page"]

/-- The `items_to_download` list comprehension of `download_course_modules`:
items whose `type` attribute is allowed and whose `published` attribute is
truthy. -/
def items_to_download (m : CourseModule) : List ModuleItem :=
  m.items.filter (fun it => allowed_types.contains (itemType it) && itemPublished it)

/-- The `if/elif` dispatch of the per-item loop of
`download_course_modules`. -/
def dispatchItem (it : ModuleItem) : Call :=
  if itemType it = "File" then .file it
  else if itemType it = "Page" then .page it
  else if itemType it = "Attachment" then .file it
  else .skipped it

/-- `download_course_modules`: per module, extend `all_items` with the
filtered items and dispatch each of them; returns the collected item list
(the function's return value) and the dispatch trace. -/
def download_course_modules (modules : List CourseModule) :
    List ModuleItem × List Call :=
  (modules.flatMap items_to_download,
   modules.flatMap (fun m => (items_to_download m).map dispatchItem))

/-- Which branch of the `_parse_question` loop fires for a stripped line:
the question-start break, one of the matchers in source order, or no
branch. -/
inductive LineKind where
  | qstart
  | choice
  | multi
  | numerical
  | short
  | essay
  | fileUp
  | other
deriving DecidableEq, Repr

/-- The classification cascade of the `_parse_question` loop on one
stripped line. -/
def lineKind (l : List Char) : LineKind :=
  if isQuestionStart l then .qstart
  else if (choiceMatch l).isSome then .choice
  else if (multiMatch l).isSome then .multi
  else if (numericalMatch l).isSome then .numerical
  else if (shortMatch l).isSome then .short
  else if essayMatch l then .essay
  else if fileMatch l then .fileUp
  else .other

/-- The body scan of `_parse_question` as a fold over the block's lines. -/
def foldProc (q : Question) (b : List (List Char)) : Question :=
  b.foldl (fun q l => processLine q (strip l)) q

/-- The choice entry appended for a multiple-choice option line. -/
def choiceEntry (l : List Char) : Choice :=
  match choiceMatch l with
  | some (s, _, t) => ⟨t, s⟩
  | none => ⟨[], false⟩

/-- The choice entry appended for a bracketed multiple-answer line. -/
def multiEntry (l : List Char) : Choice :=
  match multiMatch l with
  | some (g, t) => ⟨t, decide (g = some '*')⟩
  | none => ⟨[], false⟩

/-- The block `1. Q` / `= 5` / `___`. -/
def c1Lines1 : List (List Char) :=
  ["1. Q".toList, "= 5".toList, "___".toList]

/-- The same block with its two body lines swapped. -/
def c1Lines2 : List (List Char) :=
  ["1. Q".toList, "___".toList, "= 5".toList]

/-- Concrete two-question quiz for the C3 witness. -/
def c3Qd : QuizResult :=
  ⟨"T".toList, [], [], [initQuestion "A".toList, initQuestion "B".toList]⟩

/-- Question-creation oracle for the C3 witness: the call for question 1
raises, the call for question 2 succeeds. -/
def c3CreateQ : Nat → Question → Except String Nat :=
  fun i _ => if i = 1 then .error "boom" else .ok i

/-- The result record of the C3 witness run. -/
def c3Result : CreateResult Nat Unit :=
  (create_quiz_from_parsed (fun _ => Except.ok ()) c3CreateQ c3Qd).toOption.getD ⟨(), [], 0, 0⟩

/-- A "clean" choice/answer text: nonempty, not starting and not ending in
whitespace (any text produced by stripping is of this shape). -/
def goodText (t : List Char) : Bool :=
  !t.isEmpty && !(t.headD ' ').isWhitespace && !(t.getLastD ' ').isWhitespace

/-- The two conditional-key invariants of a question dictionary: a
`short_answer` question has an `answers` key, a `numerical` question has an
`answer` key. -/
def InvQ (q : Question) : Prop :=
  (q.type = "short_answer" → q.answers.isSome = true) ∧
  (q.type = "numerical" → q.answer.isSome = true)

/-- Concrete input for the C5 witness: a short-answer question followed by
a numerical question. -/
def exC5 : List Char :=
  "quiz title: T\n1. Capital of France?\n* Paris\n2. Two plus two?\n= 4".toList

theorem parseBody_snd_le (q : Question) (ls : List (List Char)) :
    (parseBody q ls).2 ≤ ls.length := by
  induction ls generalizing q with
  | nil => simp [parseBody]
  | cons l ls ih =>
    simp only [parseBody]
    split
    · simp
    · simpa using Nat.succ_le_succ (ih (processLine q (strip l)))

/-- C6: `_parse_question` strictly advances the scan index, and never moves
it past the end of the input (one header line plus at most the remaining
lines), so the `parse_content` scan is single-pass and terminates (the
model's `parseLoop` is a total function whose fuel `lines.length` is enough
precisely because of this strict advance). -/
theorem c6_scan_advances (lines : List (List Char)) (start : Nat) :
    start < (parseQuestionIdx lines start).2 ∧
      (parseQuestionIdx lines start).2 ≤ start + 1 + (lines.drop (start + 1)).length := by
  unfold parseQuestionIdx parseQuestionAt
  cases h : headerMatch (strip (lines.getD start [])) with
  | none => simp
  | some t =>
    have := parseBody_snd_le (initQuestion t) (lines.drop (start + 1))
    simp only []
    omega

/-- C9: `_parse_question` first scans the block's lines, then reclassifies
the scanned question to `true_false` exactly when the scan produced a
`multiple_choice` question with exactly two choices whose lowercased texts
include both "true" and "false", or both "yes" and "no"; otherwise the type
from the line scan is kept (the scan index is unaffected). -/
theorem c9_true_false_autodetect (l : List Char) (ls : List (List Char)) :
    (parseQuestionAt l ls).2 = (scanQuestionAt l ls).2 ∧
      (parseQuestionAt l ls).1 = (scanQuestionAt l ls).1.map (fun q =>
        if q.type = "multiple_choice" ∧ q.choices.length = 2 ∧
            (let ts := q.choices.map (fun ch => lower ch.text)
             ("true".toList ∈ ts ∧ "false".toList ∈ ts) ∨
             ("yes".toList ∈ ts ∧ "no".toList ∈ ts))
        then { q with type := "true_false" } else q) := by
  cases h : headerMatch (strip l) with
  | none => simp [parseQuestionAt, scanQuestionAt, h]
  | some t => simp [parseQuestionAt, scanQuestionAt, h]

/-- C4 counterexample: with every environment variable missing, the startup
validation of `create_canvas_quiz.main` does not catch the error and
continue — it raises an uncaught `ValueError` (modelled as `Except.error`),
and `get_canvas_module_items.main` raises an uncaught `AttributeError`;
in neither script does any remaining work run. -/
theorem c4_env_counterexample :
    validate_env (fun _ => none) =
      Except.error "CANVAS_URL not found in environment variables. Please check your .env file." ∧
    (validate_env (fun _ => none)).toOption = none ∧
    gcmi_canvas_url (fun _ => none) = Except.error "AttributeError: rstrip of None" := by
  refine ⟨rfl, rfl, rfl⟩

/-- C4 amended: when a required environment variable (`CANVAS_URL`,
`CANVAS_API_TOKEN`, or `CANVAS_COURSE_ID`) is missing at startup, the
validation in `create_canvas_quiz.main` raises an uncaught `ValueError`
naming the variable and the program stops before doing any work; in
`get_canvas_module_items.main` a missing `CANVAS_URL` raises an uncaught
`AttributeError`.  The error is not caught and no remaining work
continues. -/
theorem c4_env_amended (env : String → Option String) :
    (env "CANVAS_URL" = none →
      validate_env env =
        Except.error "CANVAS_URL not found in environment variables. Please check your .env file." ∧
      gcmi_canvas_url env = Except.error "AttributeError: rstrip of None") ∧
    (env "CANVAS_URL" ≠ none → env "CANVAS_URL" ≠ some "" →
      env "CANVAS_API_TOKEN" = none →
      validate_env env =
        Except.error "CANVAS_API_TOKEN not found in environment variables. Please check your .env file.") ∧
    (env "CANVAS_URL" ≠ none → env "CANVAS_URL" ≠ some "" →
      env "CANVAS_API_TOKEN" ≠ none → env "CANVAS_API_TOKEN" ≠ some "" →
      env "CANVAS_COURSE_ID" = none →
      validate_env env =
        Except.error "CANVAS_COURSE_ID not found in environment variables. Please check your .env file.") := by
  refine ⟨fun h => ?_, fun h1 h2 h3 => ?_, fun h1 h2 h3 h4 h5 => ?_⟩
  · constructor
    · unfold validate_env
      rw [if_pos (Or.inl h)]
    · unfold gcmi_canvas_url
      rw [h]
  · unfold validate_env
    rw [if_neg (by tauto), if_pos (Or.inl h3)]
  · unfold validate_env
    rw [if_neg (by tauto), if_neg (by tauto), if_pos (Or.inl h5)]

/-- Witness for C4's amended theorem at a concrete environment that has
`CANVAS_URL` set but no `CANVAS_API_TOKEN`. -/
theorem c4_env_amended_witness :
    validate_env (fun k => if k = "CANVAS_URL" then some "https://x.test" else none) =
      Except.error "CANVAS_API_TOKEN not found in environment variables. Please check your .env file." :=
  (c4_env_amended (fun k => if k = "CANVAS_URL" then some "https://x.test" else none)).2.1
    (by decide) (by decide) rfl

/-- C7: `download_course_modules` returns only module items whose `type`
attribute is `File`, `Page`, or `Attachment`; an item of any other type is
never in the returned list and is never dispatched to `download_file` or
`download_page`. -/
theorem c7_allowed_types (modules : List CourseModule) (it : ModuleItem) :
    (it ∈ (download_course_modules modules).1 → itemType it ∈ allowed_types) ∧
    (itemType it ∉ allowed_types →
      it ∉ (download_course_modules modules).1 ∧
      Call.file it ∉ (download_course_modules modules).2 ∧
      Call.page it ∉ (download_course_modules modules).2) := by
  constructor
  · intro hmem
    simp only [download_course_modules, List.mem_flatMap, items_to_download,
      List.mem_filter, Bool.and_eq_true] at hmem
    obtain ⟨m, _, ⟨_, hall, _⟩⟩ := hmem
    simpa using hall
  · intro hna
    refine ⟨?_, ?_, ?_⟩
    · intro hmem
      simp only [download_course_modules, List.mem_flatMap, items_to_download,
        List.mem_filter, Bool.and_eq_true] at hmem
      obtain ⟨m, _, ⟨_, hall, _⟩⟩ := hmem
      exact hna (by simpa using hall)
    · intro hmem
      simp only [download_course_modules, List.mem_flatMap, List.mem_map,
        items_to_download, List.mem_filter, Bool.and_eq_true] at hmem
      obtain ⟨m, _, ⟨it', ⟨_, hall, _⟩, hd⟩⟩ := hmem
      unfold dispatchItem at hd
      split_ifs at hd with h1 h2 h3 <;> simp_all
    · intro hmem
      simp only [download_course_modules, List.mem_flatMap, List.mem_map,
        items_to_download, List.mem_filter, Bool.and_eq_true] at hmem
      obtain ⟨m, _, ⟨it', ⟨_, hall, _⟩, hd⟩⟩ := hmem
      unfold dispatchItem at hd
      split_ifs at hd with h1 h2 h3 <;> simp_all

/-- Witness for C7 at a concrete course: a published `Quiz`-typed item in
the only module is neither returned nor dispatched to a download helper. -/
theorem c7_allowed_types_witness :
    ({ type := some "Quiz", published := some true } : ModuleItem) ∉
      (download_course_modules
        [{ items := [{ type := some "Quiz", published := some true },
                     { type := some "File", published := some true, content_id := some 5 }] }]).1 ∧
    Call.file ({ type := some "Quiz", published := some true } : ModuleItem) ∉
      (download_course_modules
        [{ items := [{ type := some "Quiz", published := some true },
                     { type := some "File", published := some true, content_id := some 5 }] }]).2 := by
  have h := (c7_allowed_types
    [{ items := [{ type := some "Quiz", published := some true },
                 { type := some "File", published := some true, content_id := some 5 }] }]
    { type := some "Quiz", published := some true }).2 (by decide)
  exact ⟨h.1, h.2.1⟩

/-- C10: every module item returned by `download_course_modules` has
`published = True`; an item whose `published` attribute is absent or not
`True` is never returned and never dispatched to a download helper, even
when its type is allowed. -/
theorem c10_published_filter (modules : List CourseModule) (it : ModuleItem) :
    (it ∈ (download_course_modules modules).1 → it.published = some true) ∧
    (it.published ≠ some true →
      it ∉ (download_course_modules modules).1 ∧
      Call.file it ∉ (download_course_modules modules).2 ∧
      Call.page it ∉ (download_course_modules modules).2) := by
  have hpub : ∀ jt : ModuleItem, itemPublished jt = true → jt.published = some true := by
    intro jt h
    unfold itemPublished at h
    cases hj : jt.published with
    | none => rw [hj] at h; simp [Option.getD] at h
    | some b => rw [hj] at h; simp [Option.getD] at h; rw [h]
  constructor
  · intro hmem
    simp only [download_course_modules, List.mem_flatMap, items_to_download,
      List.mem_filter, Bool.and_eq_true] at hmem
    obtain ⟨m, _, ⟨_, _, hp⟩⟩ := hmem
    exact hpub it hp
  · intro hna
    refine ⟨?_, ?_, ?_⟩
    · intro hmem
      simp only [download_course_modules, List.mem_flatMap, items_to_download,
        List.mem_filter, Bool.and_eq_true] at hmem
      obtain ⟨m, _, ⟨_, _, hp⟩⟩ := hmem
      exact hna (hpub it hp)
    · intro hmem
      simp only [download_course_modules, List.mem_flatMap, List.mem_map,
        items_to_download, List.mem_filter, Bool.and_eq_true] at hmem
      obtain ⟨m, _, ⟨it', ⟨_, _, hp⟩, hd⟩⟩ := hmem
      have : it' = it := by
        unfold dispatchItem at hd
        split_ifs at hd <;> simp_all
      exact hna (this ▸ hpub it' hp)
    · intro hmem
      simp only [download_course_modules, List.mem_flatMap, List.mem_map,
        items_to_download, List.mem_filter, Bool.and_eq_true] at hmem
      obtain ⟨m, _, ⟨it', ⟨_, _, hp⟩, hd⟩⟩ := hmem
      have : it' = it := by
        unfold dispatchItem at hd
        split_ifs at hd <;> simp_all
      exact hna (this ▸ hpub it' hp)

/-- Witness for C10: an unpublished item of allowed type `File` is neither
returned nor dispatched. -/
theorem c10_published_filter_witness :
    ({ type := some "File", content_id := some 9, published := some false } : ModuleItem) ∉
      (download_course_modules
        [{ items := [{ type := some "File", content_id := some 9, published := some false }] }]).1 ∧
    Call.file ({ type := some "File", content_id := some 9, published := some false } : ModuleItem) ∉
      (download_course_modules
        [{ items := [{ type := some "File", content_id := some 9, published := some false }] }]).2 := by
  have h := (c10_published_filter
    [{ items := [{ type := some "File", content_id := some 9, published := some false }] }]
    { type := some "File", content_id := some 9, published := some false }).2 (by decide)
  exact ⟨h.1, h.2.1⟩

/-- C8: module-item fields are optional at each call site.  `download_file`
on an item without `content_id` prints a message and returns without
writing any file; `download_page` without `page_url` likewise; the
`getattr` accessors replace absent `id`, `name`, `title`, `position`,
`type`, `published` attributes by their defaults instead of raising.  (In
the model the download helpers are total functions returning effect
traces, so "no exception escapes" holds by construction.) -/
theorem c8_optional_fields (getFile : Int → Except String FileObj)
    (getPage : String → Except String PageObj) (item : ModuleItem)
    (m : CourseModule) (dir : String) (pos : Int) :
    (item.content_id = none →
      download_file getFile item m dir pos =
        [Effect.print ("    No content_id for file: " ++ itemTitle item)] ∧
      ∀ p, Effect.write p ∉ download_file getFile item m dir pos) ∧
    (item.page_url = none →
      download_page getPage item m dir pos =
        [Effect.print ("    No page_url for page: " ++ itemTitle item)] ∧
      ∀ p, Effect.write p ∉ download_page getPage item m dir pos) ∧
    (m.id = none → moduleIdAttr m = 0) ∧
    (m.name = none → moduleNameAttr m = "Unknown Module") ∧
    (item.title = none → itemTitle item = "untitled") ∧
    (item.position = none → itemPosition item = 0) ∧
    (item.type = none → itemType item = "") ∧
    (item.published = none → itemPublished item = false) := by
  refine ⟨fun h => ?_, fun h => ?_, fun h => ?_, fun h => ?_, fun h => ?_,
    fun h => ?_, fun h => ?_, fun h => ?_⟩
  · have he : download_file getFile item m dir pos =
        [Effect.print ("    No content_id for file: " ++ itemTitle item)] := by
      unfold download_file
      rw [h]
    exact ⟨he, by intro p; rw [he]; simp⟩
  · have he : download_page getPage item m dir pos =
        [Effect.print ("    No page_url for page: " ++ itemTitle item)] := by
      unfold download_page
      rw [h]
    exact ⟨he, by intro p; rw [he]; simp⟩
  · simp [moduleIdAttr, h]
  · simp [moduleNameAttr, h]
  · simp [itemTitle, h]
  · simp [itemPosition, h]
  · simp [itemType, h]
  · simp [itemPublished, h]

/-- Witness for C8 at the fully-absent item and module. -/
theorem c8_optional_fields_witness :
    download_file (fun _ => Except.error "down") ({} : ModuleItem) ({} : CourseModule) "downloads" 0 =
      [Effect.print ("    No content_id for file: " ++ itemTitle ({} : ModuleItem))] ∧
    download_page (fun _ => Except.error "down") ({} : ModuleItem) ({} : CourseModule) "downloads" 0 =
      [Effect.print ("    No page_url for page: " ++ itemTitle ({} : ModuleItem))] ∧
    moduleIdAttr ({} : CourseModule) = 0 ∧
    itemTitle ({} : ModuleItem) = "untitled" ∧
    itemType ({} : ModuleItem) = "" ∧
    itemPublished ({} : ModuleItem) = false := by
  have h := c8_optional_fields (fun _ => Except.error "down")
    (fun _ => Except.error "down") ({} : ModuleItem) ({} : CourseModule) "downloads" 0
  exact ⟨(h.1 rfl).1, (h.2.1 rfl).1, h.2.2.1 rfl, h.2.2.2.2.1 rfl,
    h.2.2.2.2.2.2.1 rfl, h.2.2.2.2.2.2.2 rfl⟩

theorem addQuestions_eq {α : Type} (f : Nat → Question → Except String α)
    (i : Nat) (qs : List Question) :
    addQuestions f i qs =
      (List.enumFrom i qs).filterMap (fun p => (f p.1 p.2).toOption) := by
  induction qs generalizing i with
  | nil => simp [addQuestions]
  | cons q qs ih =>
    simp only [addQuestions, List.enumFrom, List.filterMap]
    cases h : f i q <;> simp [h, Except.toOption, ih]

/-- C3: once the quiz itself has been created, each question-creation call
is wrapped in its own `try/except`: a failure at question `i` is printed
and the loop continues with question `i+1`.  Consequently the returned
`questions` list consists exactly of the successfully created questions, in
order, and `total_questions` is the number of successes (not the number of
parsed questions). -/
theorem c3_per_item_errors {α β : Type} (createQuiz : Rat → Except String β)
    (createQ : Nat → Question → Except String α) (qd : QuizResult)
    (r : CreateResult α β)
    (h : create_quiz_from_parsed createQuiz createQ qd = Except.ok r) :
    r.questions =
      (List.enumFrom 1 qd.questions).filterMap (fun p => (createQ p.1 p.2).toOption) ∧
    r.total_questions = r.questions.length := by
  unfold create_quiz_from_parsed at h
  dsimp only [] at h
  split at h
  · simp at h
  · simp only [Except.ok.injEq] at h
    subst h
    exact ⟨addQuestions_eq createQ 1 qd.questions, rfl⟩




/-- Witness for C3: with the first creation failing, question 2 is still
created, and `total_questions` is 1 although 2 questions were parsed. -/
theorem c3_per_item_errors_witness :
    c3Result.questions = [2] ∧
    c3Result.total_questions = c3Result.questions.length ∧
    c3Qd.questions.length = 2 := by
  have h := c3_per_item_errors (fun _ => Except.ok ()) c3CreateQ c3Qd c3Result rfl
  exact ⟨h.1.trans (by decide), h.2, rfl⟩


theorem goodText_spec (t : List Char) (ht : goodText t = true) :
    t ≠ [] ∧ (t.headD ' ').isWhitespace = false ∧ (t.getLastD ' ').isWhitespace = false := by
  unfold goodText at ht
  simp only [Bool.and_eq_true, Bool.not_eq_true'] at ht
  refine ⟨?_, ht.1.2, ht.2⟩
  cases t with
  | nil => simp at ht
  | cons c r => simp

theorem dropWhile_ws_of_goodText (t : List Char) (ht : goodText t = true) :
    t.dropWhile Char.isWhitespace = t := by
  obtain ⟨hne, hhead, _⟩ := goodText_spec t ht
  cases t with
  | nil => simp
  | cons c r =>
    simp only [List.headD_cons] at hhead
    simp [List.dropWhile_cons, hhead]

theorem dropWhile_ws_append (ws t : List Char)
    (hws : ∀ ch ∈ ws, ch.isWhitespace = true) (ht : goodText t = true) :
    (ws ++ t).dropWhile Char.isWhitespace = t := by
  induction ws with
  | nil => simpa using dropWhile_ws_of_goodText t ht
  | cons w ws ih =>
    have hw := hws w (List.mem_cons_self w ws)
    simp only [List.cons_append, List.dropWhile_cons, hw, if_pos]
    exact ih (fun ch h => hws ch (List.mem_cons_of_mem w h))

theorem wsCapture_ws_append (ws t : List Char) (hne : ws ≠ [])
    (hws : ∀ ch ∈ ws, ch.isWhitespace = true) (ht : goodText t = true) :
    wsCapture (ws ++ t) = some t := by
  cases ws with
  | nil => exact absurd rfl hne
  | cons w ws' =>
    have hw := hws w (List.mem_cons_self w ws')
    have hdrop : (ws' ++ t).dropWhile Char.isWhitespace = t :=
      dropWhile_ws_append ws' t (fun ch h => hws ch (List.mem_cons_of_mem w h)) ht
    have htne := (goodText_spec t ht).1
    simp only [List.cons_append, wsCapture, hw, if_pos, hdrop]
    rw [if_neg (by simpa using htne)]

theorem strip_of_goodText (t : List Char) (ht : goodText t = true) :
    strip t = t := by
  obtain ⟨hne, _, hlast⟩ := goodText_spec t ht
  unfold strip
  rw [dropWhile_ws_of_goodText t ht]
  have h2 : t.reverse.dropWhile Char.isWhitespace = t.reverse := by
    cases hrev : t.reverse with
    | nil => simp
    | cons c r =>
      have hdc : t.getLast? = some c := by
        rw [← List.head?_reverse, hrev, List.head?_cons]
      have hc : c.isWhitespace = false := by
        have : t.getLastD ' ' = c := by
          rw [List.getLastD_eq_getLast?, hdc]; rfl
        rw [← this]; exact hlast
      simp [List.dropWhile_cons, hc]
  rw [h2, List.reverse_reverse]

theorem choiceCore_cons (star : Bool) (c p : Char) (r : List Char) :
    choiceCore star (c :: p :: r) =
      if p = ')' ∧ 'a' ≤ c ∧ c ≤ 'z' then (wsCapture r).map (fun t => (star, c, t))
      else none := rfl

theorem choiceMatch_cons (c : Char) (r : List Char) (h : c ≠ '*') :
    choiceMatch (c :: r) = choiceCore false (c :: r) := by
  unfold choiceMatch
  simp only [List.headD_cons]
  rw [if_neg h]

theorem choiceMatch_star (r : List Char) :
    choiceMatch ('*' :: r) = choiceCore true r := by
  unfold choiceMatch
  simp

theorem multiMatch_capture (g : Char) (r t : List Char) (h : wsCapture r = some t) :
    multiMatch ('[' :: g :: ']' :: r) = some (some g, t) := by
  unfold multiMatch
  simp [h]

/-- C2: the line-prefix markers of `_parse_question`.  For a marker line
built from any nonempty whitespace run `ws` and any clean text `t`:
`c) t` and `*c) t` set the type to `multiple_choice` and append a choice
that is correct iff the `*` prefix is present; `[ ] t` and `[*] t` set the
type to `multiple_answer` and append a choice that is correct iff the
bracket contains `*`; `= t` sets the type to `numerical` and records `t` as
the answer; a line of three or more underscores sets the type to
`essay`. -/
theorem c2_line_markers (q : Question) (ws t : List Char) (c : Char) (n : Nat)
    (hws : ws ≠ [] ∧ ∀ ch ∈ ws, ch.isWhitespace = true)
    (ht : goodText t = true) (hc : 'a' ≤ c ∧ c ≤ 'z') (hn : 3 ≤ n) :
    processLine q (c :: ')' :: (ws ++ t)) =
      { q with type := "multiple_choice", choices := q.choices ++ [⟨t, false⟩] } ∧
    processLine q ('*' :: c :: ')' :: (ws ++ t)) =
      { q with type := "multiple_choice", choices := q.choices ++ [⟨t, true⟩] } ∧
    processLine q ('[' :: ' ' :: ']' :: (ws ++ t)) =
      { q with type := "multiple_answer", choices := q.choices ++ [⟨t, false⟩] } ∧
    processLine q ('[' :: '*' :: ']' :: (ws ++ t)) =
      { q with type := "multiple_answer", choices := q.choices ++ [⟨t, true⟩] } ∧
    processLine q ('=' :: (ws ++ t)) =
      { q with type := "numerical", answer := some t } ∧
    processLine q (List.replicate n '_') = { q with type := "essay" } := by
  obtain ⟨hwne, hwall⟩ := hws
  have hcap : wsCapture (ws ++ t) = some t := wsCapture_ws_append ws t hwne hwall ht
  have hcstar : c ≠ '*' := by
    intro h
    rw [h] at hc
    exact absurd hc (by decide)
  obtain ⟨w, ws', rfl⟩ : ∃ w ws', ws = w :: ws' := by
    cases ws with
    | nil => exact absurd rfl hwne
    | cons a b => exact ⟨a, b, rfl⟩
  have hwws : w.isWhitespace = true := hwall w (List.mem_cons_self w ws')
  have hwnp : w ≠ ')' := by
    intro h
    rw [h] at hwws
    exact absurd hwws (by decide)
  refine ⟨?_, ?_, ?_, ?_, ?_, ?_⟩
  · have h1 : choiceMatch (c :: ')' :: ((w :: ws') ++ t)) = some (false, c, t) := by
      rw [choiceMatch_cons _ _ hcstar, choiceCore_cons, if_pos ⟨rfl, hc⟩, hcap]
      rfl
    unfold processLine
    rw [h1]
  · have h1 : choiceMatch ('*' :: c :: ')' :: ((w :: ws') ++ t)) = some (true, c, t) := by
      rw [choiceMatch_star, choiceCore_cons, if_pos ⟨rfl, hc⟩, hcap]
      rfl
    unfold processLine
    rw [h1]
  · have h1 : choiceMatch ('[' :: ' ' :: ']' :: ((w :: ws') ++ t)) = none := by
      rw [choiceMatch_cons _ _ (by decide), choiceCore_cons,
        if_neg (fun h => absurd h.1 (by decide))]
    have h2 : multiMatch ('[' :: ' ' :: ']' :: ((w :: ws') ++ t)) = some (some ' ', t) :=
      multiMatch_capture ' ' _ t hcap
    unfold processLine
    rw [h1, h2]
    rfl
  · have h1 : choiceMatch ('[' :: '*' :: ']' :: ((w :: ws') ++ t)) = none := by
      rw [choiceMatch_cons _ _ (by decide), choiceCore_cons,
        if_neg (fun h => absurd h.1 (by decide))]
    have h2 : multiMatch ('[' :: '*' :: ']' :: ((w :: ws') ++ t)) = some (some '*', t) :=
      multiMatch_capture '*' _ t hcap
    unfold processLine
    rw [h1, h2]
    rfl
  · have h1 : choiceMatch ('=' :: ((w :: ws') ++ t)) = none := by
      rw [choiceMatch_cons _ _ (by decide)]
      rw [show ('=' :: ((w :: ws') ++ t)) = '=' :: w :: (ws' ++ t) from rfl]
      rw [choiceCore_cons, if_neg (fun h => hwnp h.1)]
    have h2 : multiMatch ('=' :: ((w :: ws') ++ t)) = none := rfl
    have h3 : numericalMatch ('=' :: ((w :: ws') ++ t)) = some t := by
      unfold numericalMatch
      simpa using hcap
    unfold processLine
    rw [h1, h2, h3]
    simp [strip_of_goodText t ht]
  · obtain ⟨m, rfl⟩ : ∃ m, n = 3 + m := ⟨n - 3, by omega⟩
    have hrep : List.replicate (3 + m) '_' = '_' :: '_' :: '_' :: List.replicate m '_' := by
      rw [List.replicate_add]
      rfl
    rw [hrep]
    have h1 : choiceMatch ('_' :: '_' :: '_' :: List.replicate m '_') = none := by
      rw [choiceMatch_cons _ _ (by decide), choiceCore_cons,
        if_neg (fun h => absurd h.1 (by decide))]
    have h2 : multiMatch ('_' :: '_' :: '_' :: List.replicate m '_') = none := rfl
    have h3 : numericalMatch ('_' :: '_' :: '_' :: List.replicate m '_') = none := rfl
    have h4 : shortMatch ('_' :: '_' :: '_' :: List.replicate m '_') = none := rfl
    unfold processLine
    rw [h1, h2, h3, h4]
    simp [essayMatch]

/-- Witness for C2 at concrete marker lines (`b) six`, `*b) six`,
`[ ] six`, `[*] six`, `= six`, `___`) and the freshly initialised question
of a block. -/
theorem c2_line_markers_witness :
    processLine (initQuestion "Q".toList) ('b' :: ')' :: ([' '] ++ "six".toList)) =
      { initQuestion "Q".toList with
        type := "multiple_choice",
        choices := [⟨"six".toList, false⟩] } ∧
    processLine (initQuestion "Q".toList) ('*' :: 'b' :: ')' :: ([' '] ++ "six".toList)) =
      { initQuestion "Q".toList with
        type := "multiple_choice",
        choices := [⟨"six".toList, true⟩] } ∧
    processLine (initQuestion "Q".toList) ('[' :: ' ' :: ']' :: ([' '] ++ "six".toList)) =
      { initQuestion "Q".toList with
        type := "multiple_answer",
        choices := [⟨"six".toList, false⟩] } ∧
    processLine (initQuestion "Q".toList) ('[' :: '*' :: ']' :: ([' '] ++ "six".toList)) =
      { initQuestion "Q".toList with
        type := "multiple_answer",
        choices := [⟨"six".toList, true⟩] } ∧
    processLine (initQuestion "Q".toList) ('=' :: ([' '] ++ "six".toList)) =
      { initQuestion "Q".toList with type := "numerical", answer := some "six".toList } ∧
    processLine (initQuestion "Q".toList) (List.replicate 3 '_') =
      { initQuestion "Q".toList with type := "essay" } := by
  have h := c2_line_markers (initQuestion "Q".toList) [' '] "six".toList 'b' 3
    ⟨by decide, by decide⟩ (by decide) (by decide) (by decide)
  simpa [initQuestion] using h

theorem processLine_text (q : Question) (l : List Char) :
    (processLine q l).text = q.text := by
  unfold processLine
  repeat' split
  all_goals rfl


theorem processLine_inv (q : Question) (l : List Char) (h : InvQ q) :
    InvQ (processLine q l) := by
  obtain ⟨h1, h2⟩ := h
  unfold processLine
  repeat' split
  all_goals refine ⟨fun hh => ?_, fun hh => ?_⟩
  all_goals
    first
      | exact h1 hh
      | exact h2 hh
      | rfl
      | (exfalso; simp at hh)

theorem parseBody_text (q : Question) (ls : List (List Char)) :
    (parseBody q ls).1.text = q.text := by
  induction ls generalizing q with
  | nil => rfl
  | cons l ls ih =>
    simp only [parseBody]
    split
    · rfl
    · simpa [processLine_text] using ih (processLine q (strip l))

theorem parseBody_inv (q : Question) (ls : List (List Char)) (h : InvQ q) :
    InvQ (parseBody q ls).1 := by
  induction ls generalizing q with
  | nil => exact h
  | cons l ls ih =>
    simp only [parseBody]
    split
    · exact h
    · exact ih (processLine q (strip l)) (processLine_inv q (strip l) h)

theorem initQuestion_inv (t : List Char) : InvQ (initQuestion t) := by
  refine ⟨fun hh => ?_, fun hh => ?_⟩
  all_goals exfalso; simp [initQuestion] at hh

theorem invQ_true_false (q : Question) : InvQ { q with type := "true_false" } := by
  refine ⟨fun hh => ?_, fun hh => ?_⟩
  all_goals exfalso; simp at hh

/-- Shape of the question returned by `_parse_question`: exactly when the
header line matches, a question is returned; its `text` is the header
capture, and it satisfies the conditional-key invariants. -/
theorem parseQuestionAt_cases (l : List Char) (ls : List (List Char)) :
    (headerMatch (strip l) = none → (parseQuestionAt l ls).1 = none) ∧
    (∀ t, headerMatch (strip l) = some t →
      ∃ q, (parseQuestionAt l ls).1 = some q ∧ q.text = t ∧ InvQ q) := by
  constructor
  · intro h
    unfold parseQuestionAt
    rw [h]
  · intro t h
    unfold parseQuestionAt
    rw [h]
    have hinv : InvQ (parseBody (initQuestion t) ls).1 :=
      parseBody_inv (initQuestion t) ls (initQuestion_inv t)
    have htext : (parseBody (initQuestion t) ls).1.text = t :=
      parseBody_text (initQuestion t) ls
    dsimp only []
    split
    · exact ⟨_, rfl, htext, invQ_true_false _⟩
    · exact ⟨_, rfl, htext, hinv⟩

theorem applySettings_questions (st : PState) (line : List Char) :
    (applySettings st line).questions = st.questions := by
  unfold applySettings
  split_ifs
  all_goals rfl

theorem parseLoop_questions (lines : List (List Char)) (fuel : Nat) :
    ∀ (i : Nat) (st : PState), (∀ q ∈ st.questions, InvQ q) →
      (parseLoop lines fuel i st).questions.map Question.text =
        st.questions.map Question.text ++ headerTextsLoop lines fuel i ∧
      ∀ q ∈ (parseLoop lines fuel i st).questions, InvQ q := by
  induction fuel with
  | zero => intro i st hst; exact ⟨by simp [parseLoop, headerTextsLoop], hst⟩
  | succ fuel ih =>
    intro i st hst
    simp only [parseLoop, headerTextsLoop]
    split_ifs with hi hskip hq
    · exact ih (i + 1) st hst
    · cases hh : headerMatch (strip (lines.getD i [])) with
      | none =>
        have hnone : (parseQuestionIdx lines i).1 = none :=
          (parseQuestionAt_cases (lines.getD i []) (lines.drop (i + 1))).1 hh
        rw [hnone]
        have hrec := ih (parseQuestionIdx lines i).2
          (applySettings st (strip (lines.getD i [])))
          (by rw [applySettings_questions]; exact hst)
        simpa [applyQ, applySettings_questions] using hrec
      | some t =>
        obtain ⟨q, hq1, hq2, hq3⟩ :=
          (parseQuestionAt_cases (lines.getD i []) (lines.drop (i + 1))).2 t hh
        have hsome : (parseQuestionIdx lines i).1 = some q := hq1
        rw [hsome]
        have hinv2 : ∀ q' ∈
            (applyQ (applySettings st (strip (lines.getD i []))) (some q)).questions, InvQ q' := by
          intro q' hmem
          simp only [applyQ, applySettings_questions, List.mem_append,
            List.mem_singleton] at hmem
          rcases hmem with h | h
          · exact hst q' h
          · exact h ▸ hq3
        have hrec := ih (parseQuestionIdx lines i).2
          (applyQ (applySettings st (strip (lines.getD i []))) (some q)) hinv2
        refine ⟨?_, hrec.2⟩
        rw [hrec.1]
        simp [applyQ, applySettings_questions, hq2]
    · have hrec := ih (i + 1) (applySettings st (strip (lines.getD i [])))
        (by rw [applySettings_questions]; exact hst)
      simpa [applySettings_questions] using hrec
    · exact ⟨by simp, hst⟩

/-- C5: `parse_content` returns the quiz record (title, description,
multiple attempts, questions); the questions appear in the same order as
their numbered header lines appear in the input — their `text` fields, in
order, are exactly the header captures in scan order — and every question
carries `text`, `type`, `choices`, `points` (total fields of the record
type), with `answers` present on `short_answer` questions and `answer`
present on `numerical` questions. -/
theorem c5_parse_result (content : List Char) :
    (parse_content content).questions.map Question.text = headerTexts content ∧
    ∀ q ∈ (parse_content content).questions,
      (q.type = "short_answer" → q.answers.isSome = true) ∧
      (q.type = "numerical" → q.answer.isSome = true) := by
  unfold parse_content headerTexts
  have h := parseLoop_questions (splitNl content) (splitNl content).length 0
    { initPState with questions := [] } (by intro q hq; simp [initPState] at hq)
  exact ⟨by simpa using h.1, h.2⟩


/-- Witness for C5: on `exC5` the question texts equal the header captures
in order, the first (short-answer) question has its `answers` key, and the
second (numerical) question has its `answer` key. -/
theorem c5_parse_result_witness :
    (parse_content exC5).questions.map Question.text = headerTexts exC5 ∧
    ((parse_content exC5).questions.getD 0 (initQuestion [])).answers.isSome = true ∧
    ((parse_content exC5).questions.getD 1 (initQuestion [])).answer.isSome = true := by
  have h := c5_parse_result exC5
  refine ⟨h.1, ?_, ?_⟩
  · exact (h.2 ((parse_content exC5).questions.getD 0 (initQuestion [])) (by decide)).1 (by decide)
  · exact (h.2 ((parse_content exC5).questions.getD 1 (initQuestion [])) (by decide)).2 (by decide)

theorem foldProc_cons (q : Question) (l : List Char) (b : List (List Char)) :
    foldProc q (l :: b) = foldProc (processLine q (strip l)) b := rfl

theorem parseBody_no_qstart (b : List (List Char))
    (h : ∀ l ∈ b, isQuestionStart (strip l) = false) (q : Question) :
    parseBody q b = (foldProc q b, b.length) := by
  induction b generalizing q with
  | nil => rfl
  | cons l b ih =>
    have hl := h l (List.mem_cons_self l b)
    simp only [parseBody, hl, Bool.false_eq_true, if_false]
    rw [ih (fun x hx => h x (List.mem_cons_of_mem l hx)) (processLine q (strip l))]
    rfl

theorem lineKind_of_qstart (l : List Char) (h : isQuestionStart l = true) :
    lineKind l = .qstart := by
  unfold lineKind
  rw [if_pos h]

theorem processLine_of_choice (l : List Char) (h : lineKind l = .choice) (q : Question) :
    ∃ s c t, choiceMatch l = some (s, c, t) ∧
      processLine q l = { q with type := "multiple_choice", choices := q.choices ++ [⟨t, s⟩] } := by
  unfold lineKind at h
  split_ifs at h with h1 h2 <;> try simp at h
  obtain ⟨⟨s, c, t⟩, hx⟩ := Option.isSome_iff_exists.mp h2
  refine ⟨s, c, t, hx, ?_⟩
  unfold processLine
  rw [hx]

theorem processLine_of_multi (l : List Char) (h : lineKind l = .multi) (q : Question) :
    ∃ g t, multiMatch l = some (g, t) ∧ choiceMatch l = none ∧
      processLine q l =
        { q with type := "multiple_answer", choices := q.choices ++ [⟨t, decide (g = some '*')⟩] } := by
  unfold lineKind at h
  split_ifs at h with h1 h2 h3 <;> try simp at h
  obtain ⟨⟨g, t⟩, hx⟩ := Option.isSome_iff_exists.mp h3
  have hc : choiceMatch l = none := Option.not_isSome_iff_eq_none.mp h2
  refine ⟨g, t, hx, hc, ?_⟩
  unfold processLine
  rw [hc, hx]

theorem processLine_of_numerical (l : List Char) (h : lineKind l = .numerical) (q : Question) :
    ∃ t, numericalMatch l = some t ∧
      processLine q l = { q with type := "numerical", answer := some (strip t) } := by
  unfold lineKind at h
  split_ifs at h with h1 h2 h3 h4 <;> try simp at h
  obtain ⟨t, hx⟩ := Option.isSome_iff_exists.mp h4
  refine ⟨t, hx, ?_⟩
  unfold processLine
  rw [Option.not_isSome_iff_eq_none.mp h2, Option.not_isSome_iff_eq_none.mp h3, hx]

theorem processLine_of_short (l : List Char) (h : lineKind l = .short) (q : Question) :
    ∃ t, shortMatch l = some t ∧
      processLine q l =
        { q with type := "short_answer", answers := some (q.answers.getD [] ++ [t]) } := by
  unfold lineKind at h
  split_ifs at h with h1 h2 h3 h4 h5 <;> try simp at h
  obtain ⟨t, hx⟩ := Option.isSome_iff_exists.mp h5
  refine ⟨t, hx, ?_⟩
  unfold processLine
  rw [Option.not_isSome_iff_eq_none.mp h2, Option.not_isSome_iff_eq_none.mp h3,
    Option.not_isSome_iff_eq_none.mp h4, hx]

theorem processLine_of_essay (l : List Char) (h : lineKind l = .essay) (q : Question) :
    processLine q l = { q with type := "essay" } := by
  unfold lineKind at h
  split_ifs at h with h1 h2 h3 h4 h5 h6 <;> try simp at h
  unfold processLine
  rw [Option.not_isSome_iff_eq_none.mp h2, Option.not_isSome_iff_eq_none.mp h3,
    Option.not_isSome_iff_eq_none.mp h4, Option.not_isSome_iff_eq_none.mp h5]
  rw [if_pos h6]

theorem processLine_of_fileUp (l : List Char) (h : lineKind l = .fileUp) (q : Question) :
    processLine q l = { q with type := "file_upload" } := by
  unfold lineKind at h
  split_ifs at h with h1 h2 h3 h4 h5 h6 h7 <;> try simp at h
  unfold processLine
  rw [Option.not_isSome_iff_eq_none.mp h2, Option.not_isSome_iff_eq_none.mp h3,
    Option.not_isSome_iff_eq_none.mp h4, Option.not_isSome_iff_eq_none.mp h5]
  rw [if_neg (by simp [h6]), if_pos h7]

theorem processLine_of_other (l : List Char) (h : lineKind l = .other) (q : Question) :
    processLine q l = q := by
  unfold lineKind at h
  split_ifs at h with h1 h2 h3 h4 h5 h6 h7 <;> try simp at h
  unfold processLine
  rw [Option.not_isSome_iff_eq_none.mp h2, Option.not_isSome_iff_eq_none.mp h3,
    Option.not_isSome_iff_eq_none.mp h4, Option.not_isSome_iff_eq_none.mp h5]
  rw [if_neg (by simp [h6]), if_neg (by simp [h7])]

theorem foldProc_choice (b : List (List Char))
    (hb : ∀ l ∈ b, lineKind (strip l) = .choice) (q : Question) :
    (foldProc q b).type = (if b.isEmpty then q.type else "multiple_choice") ∧
    (foldProc q b).choices = q.choices ++ b.map (fun l => choiceEntry (strip l)) := by
  induction b generalizing q with
  | nil => simp [foldProc]
  | cons l b ih =>
    obtain ⟨s, c, t, hx, hpl⟩ :=
      processLine_of_choice (strip l) (hb l (List.mem_cons_self l b)) q
    rw [foldProc_cons, hpl]
    have hrec := ih (fun x hx' => hb x (List.mem_cons_of_mem l hx'))
      { q with type := "multiple_choice", choices := q.choices ++ [⟨t, s⟩] }
    refine ⟨?_, ?_⟩
    · rw [hrec.1]
      simp
    · rw [hrec.2]
      simp [choiceEntry, hx]

theorem foldProc_multi (b : List (List Char))
    (hb : ∀ l ∈ b, lineKind (strip l) = .multi) (q : Question) :
    (foldProc q b).type = (if b.isEmpty then q.type else "multiple_answer") ∧
    (foldProc q b).choices = q.choices ++ b.map (fun l => multiEntry (strip l)) := by
  induction b generalizing q with
  | nil => simp [foldProc]
  | cons l b ih =>
    obtain ⟨g, t, hx, _, hpl⟩ :=
      processLine_of_multi (strip l) (hb l (List.mem_cons_self l b)) q
    rw [foldProc_cons, hpl]
    have hrec := ih (fun x hx' => hb x (List.mem_cons_of_mem l hx'))
      { q with type := "multiple_answer", choices := q.choices ++ [⟨t, decide (g = some '*')⟩] }
    refine ⟨?_, ?_⟩
    · rw [hrec.1]
      simp
    · rw [hrec.2]
      simp [multiEntry, hx]

theorem foldProc_fixed (tk : String) (b : List (List Char))
    (hstep : ∀ (q : Question), ∀ l ∈ b,
      (processLine q (strip l)).type = tk ∧ (processLine q (strip l)).choices = q.choices)
    (q : Question) :
    (foldProc q b).type = (if b.isEmpty then q.type else tk) ∧
    (foldProc q b).choices = q.choices := by
  induction b generalizing q with
  | nil => simp [foldProc]
  | cons l b ih =>
    have h1 := hstep q l (List.mem_cons_self l b)
    rw [foldProc_cons]
    have hrec := ih (fun q' x hx => hstep q' x (List.mem_cons_of_mem l hx)) (processLine q (strip l))
    refine ⟨?_, ?_⟩
    · rw [hrec.1, h1.1]
      simp
    · rw [hrec.2, h1.2]

theorem foldProc_other (b : List (List Char))
    (hb : ∀ l ∈ b, lineKind (strip l) = .other) (q : Question) :
    foldProc q b = q := by
  induction b generalizing q with
  | nil => rfl
  | cons l b ih =>
    rw [foldProc_cons, processLine_of_other (strip l) (hb l (List.mem_cons_self l b)) q]
    exact ih (fun x hx => hb x (List.mem_cons_of_mem l hx)) q

/-- The true/false auto-detection step maps questions with equal types and
permuted choice lists to equal types. -/
theorem adjust_type_eq (q1 q2 : Question) (htype : q1.type = q2.type)
    (hcp : q1.choices.Perm q2.choices) :
    (if q1.type = "multiple_choice" ∧ q1.choices.length = 2 ∧
        (let ts := q1.choices.map (fun ch => lower ch.text)
         ("true".toList ∈ ts ∧ "false".toList ∈ ts) ∨
         ("yes".toList ∈ ts ∧ "no".toList ∈ ts))
      then { q1 with type := "true_false" } else q1).type =
    (if q2.type = "multiple_choice" ∧ q2.choices.length = 2 ∧
        (let ts := q2.choices.map (fun ch => lower ch.text)
         ("true".toList ∈ ts ∧ "false".toList ∈ ts) ∨
         ("yes".toList ∈ ts ∧ "no".toList ∈ ts))
      then { q2 with type := "true_false" } else q2).type := by
  have hmem : ∀ s : List Char,
      s ∈ q1.choices.map (fun ch => lower ch.text) ↔
        s ∈ q2.choices.map (fun ch => lower ch.text) :=
    fun s => (hcp.map (fun ch => lower ch.text)).mem_iff
  have hiff :
      (q1.type = "multiple_choice" ∧ q1.choices.length = 2 ∧
        (let ts := q1.choices.map (fun ch => lower ch.text)
         ("true".toList ∈ ts ∧ "false".toList ∈ ts) ∨
         ("yes".toList ∈ ts ∧ "no".toList ∈ ts))) ↔
      (q2.type = "multiple_choice" ∧ q2.choices.length = 2 ∧
        (let ts := q2.choices.map (fun ch => lower ch.text)
         ("true".toList ∈ ts ∧ "false".toList ∈ ts) ∨
         ("yes".toList ∈ ts ∧ "no".toList ∈ ts))) := by
    constructor
    · rintro ⟨h1, h2, h3⟩
      refine ⟨htype ▸ h1, hcp.length_eq ▸ h2, ?_⟩
      rcases h3 with ⟨ha, hb⟩ | ⟨ha, hb⟩
      · exact Or.inl ⟨(hmem _).mp ha, (hmem _).mp hb⟩
      · exact Or.inr ⟨(hmem _).mp ha, (hmem _).mp hb⟩
    · rintro ⟨h1, h2, h3⟩
      refine ⟨htype.symm ▸ h1, hcp.length_eq.symm ▸ h2, ?_⟩
      rcases h3 with ⟨ha, hb⟩ | ⟨ha, hb⟩
      · exact Or.inl ⟨(hmem _).mpr ha, (hmem _).mpr hb⟩
      · exact Or.inr ⟨(hmem _).mpr ha, (hmem _).mpr hb⟩
  split_ifs with hp1 hp2 hp3
  · rfl
  · exact absurd (hiff.mp hp1) hp2
  · exact absurd (hiff.mpr hp3) hp1
  · exact htype

theorem c1_types_eq (k : LineKind) (hk : k ≠ LineKind.qstart) (t : List Char)
    (b b' : List (List Char)) (hperm : b.Perm b') (hbe : b.isEmpty = b'.isEmpty)
    (hb : ∀ l ∈ b, lineKind (strip l) = k)
    (hb' : ∀ l ∈ b', lineKind (strip l) = k) :
    (foldProc (initQuestion t) b).type = (foldProc (initQuestion t) b').type ∧
    (foldProc (initQuestion t) b).choices.Perm (foldProc (initQuestion t) b').choices := by
  cases k with
  | qstart => exact absurd rfl hk
  | choice =>
    obtain ⟨hT, hC⟩ := foldProc_choice b hb (initQuestion t)
    obtain ⟨hT', hC'⟩ := foldProc_choice b' hb' (initQuestion t)
    constructor
    · rw [hT, hT']
      simp [initQuestion]
    · rw [hC, hC']
      have h0 : (initQuestion t).choices = [] := rfl
      rw [h0]
      simpa using hperm.map (fun l => choiceEntry (strip l))
  | multi =>
    obtain ⟨hT, hC⟩ := foldProc_multi b hb (initQuestion t)
    obtain ⟨hT', hC'⟩ := foldProc_multi b' hb' (initQuestion t)
    constructor
    · rw [hT, hT', hbe]
    · rw [hC, hC']
      have h0 : (initQuestion t).choices = [] := rfl
      rw [h0]
      simpa using hperm.map (fun l => multiEntry (strip l))
  | numerical =>
    have hstep : ∀ (q : Question), ∀ l ∈ b,
        (processLine q (strip l)).type = "numerical" ∧
        (processLine q (strip l)).choices = q.choices := by
      intro q l hl
      obtain ⟨t', _, hpl⟩ := processLine_of_numerical (strip l) (hb l hl) q
      rw [hpl]
      exact ⟨rfl, rfl⟩
    have hstep' : ∀ (q : Question), ∀ l ∈ b',
        (processLine q (strip l)).type = "numerical" ∧
        (processLine q (strip l)).choices = q.choices := by
      intro q l hl
      obtain ⟨t', _, hpl⟩ := processLine_of_numerical (strip l) (hb' l hl) q
      rw [hpl]
      exact ⟨rfl, rfl⟩
    obtain ⟨hT, hC⟩ := foldProc_fixed "numerical" b hstep (initQuestion t)
    obtain ⟨hT', hC'⟩ := foldProc_fixed "numerical" b' hstep' (initQuestion t)
    exact ⟨by rw [hT, hT', hbe], by rw [hC, hC']⟩
  | short =>
    have hstep : ∀ (q : Question), ∀ l ∈ b,
        (processLine q (strip l)).type = "short_answer" ∧
        (processLine q (strip l)).choices = q.choices := by
      intro q l hl
      obtain ⟨t', _, hpl⟩ := processLine_of_short (strip l) (hb l hl) q
      rw [hpl]
      exact ⟨rfl, rfl⟩
    have hstep' : ∀ (q : Question), ∀ l ∈ b',
        (processLine q (strip l)).type = "short_answer" ∧
        (processLine q (strip l)).choices = q.choices := by
      intro q l hl
      obtain ⟨t', _, hpl⟩ := processLine_of_short (strip l) (hb' l hl) q
      rw [hpl]
      exact ⟨rfl, rfl⟩
    obtain ⟨hT, hC⟩ := foldProc_fixed "short_answer" b hstep (initQuestion t)
    obtain ⟨hT', hC'⟩ := foldProc_fixed "short_answer" b' hstep' (initQuestion t)
    exact ⟨by rw [hT, hT', hbe], by rw [hC, hC']⟩
  | essay =>
    have hstep : ∀ (q : Question), ∀ l ∈ b,
        (processLine q (strip l)).type = "essay" ∧
        (processLine q (strip l)).choices = q.choices := by
      intro q l hl
      rw [processLine_of_essay (strip l) (hb l hl) q]
      exact ⟨rfl, rfl⟩
    have hstep' : ∀ (q : Question), ∀ l ∈ b',
        (processLine q (strip l)).type = "essay" ∧
        (processLine q (strip l)).choices = q.choices := by
      intro q l hl
      rw [processLine_of_essay (strip l) (hb' l hl) q]
      exact ⟨rfl, rfl⟩
    obtain ⟨hT, hC⟩ := foldProc_fixed "essay" b hstep (initQuestion t)
    obtain ⟨hT', hC'⟩ := foldProc_fixed "essay" b' hstep' (initQuestion t)
    exact ⟨by rw [hT, hT', hbe], by rw [hC, hC']⟩
  | fileUp =>
    have hstep : ∀ (q : Question), ∀ l ∈ b,
        (processLine q (strip l)).type = "file_upload" ∧
        (processLine q (strip l)).choices = q.choices := by
      intro q l hl
      rw [processLine_of_fileUp (strip l) (hb l hl) q]
      exact ⟨rfl, rfl⟩
    have hstep' : ∀ (q : Question), ∀ l ∈ b',
        (processLine q (strip l)).type = "file_upload" ∧
        (processLine q (strip l)).choices = q.choices := by
      intro q l hl
      rw [processLine_of_fileUp (strip l) (hb' l hl) q]
      exact ⟨rfl, rfl⟩
    obtain ⟨hT, hC⟩ := foldProc_fixed "file_upload" b hstep (initQuestion t)
    obtain ⟨hT', hC'⟩ := foldProc_fixed "file_upload" b' hstep' (initQuestion t)
    exact ⟨by rw [hT, hT', hbe], by rw [hC, hC']⟩
  | other =>
    rw [foldProc_other b hb (initQuestion t), foldProc_other b' hb' (initQuestion t)]
    exact ⟨rfl, List.Perm.refl _⟩

/-- C1 amended: the per-line classification itself is a flat cascade of
regex checks, but the block's final type is decided by the last marker line;
permuting the body lines of a block does not change the returned question's
type provided all the body lines fall to the same classification branch. -/
theorem c1_perm_amended (k : LineKind) (hk : k ≠ LineKind.qstart) (header : List Char)
    (b b' : List (List Char)) (hperm : b.Perm b')
    (hb : ∀ l ∈ b, lineKind (strip l) = k) :
    (parseQuestionAt header b).1.map Question.type =
      (parseQuestionAt header b').1.map Question.type := by
  have hb' : ∀ l ∈ b', lineKind (strip l) = k := fun l hl => hb l (hperm.mem_iff.mpr hl)
  have hnq : ∀ l ∈ b, isQuestionStart (strip l) = false := by
    intro l hl
    cases hq : isQuestionStart (strip l) with
    | false => rfl
    | true => exact absurd ((hb l hl).symm.trans (lineKind_of_qstart _ hq)) hk
  have hnq' : ∀ l ∈ b', isQuestionStart (strip l) = false := by
    intro l hl
    cases hq : isQuestionStart (strip l) with
    | false => rfl
    | true => exact absurd ((hb' l hl).symm.trans (lineKind_of_qstart _ hq)) hk
  have hbe : b.isEmpty = b'.isEmpty := by
    have := hperm.length_eq
    rcases b with _ | ⟨x, xs⟩ <;> rcases b' with _ | ⟨y, ys⟩ <;> simp_all
  unfold parseQuestionAt
  cases hh : headerMatch (strip header) with
  | none => rfl
  | some t =>
    dsimp only []
    rw [parseBody_no_qstart b hnq (initQuestion t),
        parseBody_no_qstart b' hnq' (initQuestion t)]
    have h := c1_types_eq k hk t b b' hperm hbe hb hb'
    exact congrArg some (adjust_type_eq _ _ h.1 h.2)

/-- C1 counterexample: the body lines `= 5` and `___` of one question block
are permutations of each other, yet the scanned type is `essay` in one
order and `numerical` in the other — the classification is
last-marker-wins, not order-independent. -/
theorem c1_perm_counterexample :
    (parseQuestionIdx c1Lines1 0).1.map Question.type = some "essay" ∧
    (parseQuestionIdx c1Lines2 0).1.map Question.type = some "numerical" ∧
    c1Lines1.headD [] = c1Lines2.headD [] ∧
    (c1Lines1.drop 1).Perm (c1Lines2.drop 1) := by
  refine ⟨by decide, by decide, rfl, ?_⟩
  exact List.Perm.swap _ _ _

/-- Witness for C1's amended theorem: a block whose body lines are all
multiple-choice option lines keeps its type under permutation. -/
theorem c1_perm_amended_witness :
    (parseQuestionAt "1. Q".toList ["a) true".toList, "*b) false".toList]).1.map Question.type =
      (parseQuestionAt "1. Q".toList ["*b) false".toList, "a) true".toList]).1.map Question.type :=
  c1_perm_amended LineKind.choice (by decide) "1. Q".toList
    ["a) true".toList, "*b) false".toList] ["*b) false".toList, "a) true".toList]
    (List.Perm.swap _ _ _) (by decide)
